import Mathlib

/-!
Verification development for the Stretch3_camera repository.

We give a shallow embedding of the robot transport client
(src/stretch/agent/zmq_client.py) and of the visual-servo grasping
operation (src/stretch/agent/operations/grasp_object.py), and prove
properties of the embedded definitions.

Modelling conventions:
* Python floats are modelled as rationals.  Euclidean-norm comparisons
  of the form norm(v) < t are encoded as squared comparisons
  sqDist < t^2, which is equivalent for nonnegative thresholds.
* Lock-protected regions are modelled as atomic state updates of a
  sequential state machine; deliveries made by the concurrent receive
  thread are modelled as explicit per-poll refill inputs.
* Wall-clock time is modelled by an explicit elapsed field; each loop
  iteration consumes an input dt, which stands for the fixed sleep
  plus the (nonnegative) processing overhead of that iteration.
* The helper angle_difference lives in stretch/utils/geometry.py which
  is not part of the provided sources; the embedded functions take it
  as an explicit function parameter aDiff.
-/

namespace StretchSpec

/-- An observation message as stored in the client slot self._obs:
base gps position, compass heading, the server-reported at_goal flag,
the server-reported last-completed step counter, and opaque handles
for the image payloads (rgb, depth, xyz are not inspected by the
control logic modelled here). -/
structure Obs where
  gpsX : ℚ
  gpsY : ℚ
  compass : ℚ
  atGoal : Bool
  step : ℤ
  rgb : ℕ
  depth : ℕ
  xyz : ℕ
deriving Repr, DecidableEq

/-- Configuration of one _wait_for_action call: the step id being
waited for (block_id), the timeout, and the motion thresholds. -/
structure WaitCfg where
  blockId : ℤ
  timeLimit : ℚ
  movingThreshold : ℚ
  angleThreshold : ℚ
  minStepsNotMoving : ℕ
deriving Repr, DecidableEq

/-- The client state visible to _wait_for_action: the shared
latest-observation slot self._obs, the last completed step
self._last_step, the loop locals last_pos, last_ang and
not_moving_count, and the elapsed wall-clock time since t0. -/
structure WaitState where
  obs : Option Obs
  lastStep : ℤ
  lastPos : Option (ℚ × ℚ)
  lastAng : Option ℚ
  notMovingCount : ℕ
  elapsed : ℚ
deriving Repr, DecidableEq

/-- Squared Euclidean distance between two planar points.  Encodes
np.linalg.norm(pos - last_pos) < threshold as
sqDist pos last_pos < threshold^2 (equivalent for thresholds >= 0). -/
def sqDist (p q : ℚ × ℚ) : ℚ :=
  (p.1 - q.1) ^ 2 + (p.2 - q.2) ^ 2

/-- HomeRobotZmqClient._update_obs: the receive thread stores a new
observation in the slot and updates self._last_step from obs["step"].
(The control-mode bookkeeping is not needed by the claims.) -/
def updateObs (o : Obs) (s : WaitState) : WaitState :=
  { s with obs := some o, lastStep := o.step }

/-- One pass through the lock-protected body of the polling loop in
HomeRobotZmqClient._wait_for_action (zmq_client.py lines 292-326).
Returns the successor state and whether the loop breaks (success).
If the slot holds an observation: the moved distance and turned angle
since the previous poll are computed, the consecutive not-moving
counter is updated, last_pos and last_ang are stored, and the loop
breaks when self._last_step >= block_id, the observation reports
at_goal, and the not-moving counter is strictly greater than
min_steps_not_moving; otherwise the slot is cleared (self._obs =
None).  If the slot is empty nothing happens. -/
def pollOnce (aDiff : ℚ → ℚ → ℚ) (cfg : WaitCfg) (s : WaitState) :
    WaitState × Bool :=
  match s.obs with
  | none => (s, false)
  | some o =>
    let pos : ℚ × ℚ := (o.gpsX, o.gpsY)
    let ang : ℚ := o.compass
    let notMoving : Bool :=
      match s.lastPos, s.lastAng with
      | some lp, some la =>
        decide (sqDist pos lp < cfg.movingThreshold ^ 2) &&
          decide (aDiff ang la < cfg.angleThreshold)
      | _, _ => false
    let cnt : ℕ := if notMoving then s.notMovingCount + 1 else 0
    let s1 : WaitState :=
      { s with lastPos := some pos, lastAng := some ang, notMovingCount := cnt }
    if cfg.blockId ≤ s.lastStep ∧ o.atGoal = true ∧ cfg.minStepsNotMoving < cnt then
      (s1, true)
    else
      ({ s1 with obs := none }, false)

/-- The receive-thread refill (HomeRobotZmqClient._update_obs, run by
blocking_spin) applied, if a frame arrived, before a poll. -/
def applyRefill (r : Option Obs) (s : WaitState) : WaitState :=
  match r with
  | some o => updateObs o s
  | none => s

/-- Outcome of a _wait_for_action run: breaking out of the loop
(success), raising the RuntimeError timeout, or exhausting the finite
input trace (fuelOut; used to express that the real loop never runs
forever). -/
inductive WaitResult
  | success (s : WaitState)
  | timeoutErr (s : WaitState)
  | fuelOut (s : WaitState)
deriving Repr, DecidableEq

/-- The polling loop of HomeRobotZmqClient._wait_for_action.  Each
input pair (r, dt) is one loop iteration: r is the observation (if
any) delivered by the receive thread before this poll, dt is the
wall-clock time consumed by the iteration (the 10 ms sleep plus
overhead).  After the poll the loop sleeps and raises RuntimeError
once the elapsed time exceeds the timeout. -/
def waitRun (aDiff : ℚ → ℚ → ℚ) (cfg : WaitCfg) :
    List (Option Obs × ℚ) → WaitState → WaitResult
  | [], s => .fuelOut s
  | (r, dt) :: rest, s =>
    let s0 := applyRefill r s
    let p := pollOnce aDiff cfg s0
    if p.2 then
      .success p.1
    else
      let s2 := { p.1 with elapsed := p.1.elapsed + dt }
      if cfg.timeLimit < s2.elapsed then .timeoutErr s2
      else waitRun aDiff cfg rest s2

/-- Exit-free trace of the same loop: for every iteration it records
the post-poll state, the break flag, and the post-sleep state, and
keeps scanning regardless of break or timeout.  Used to state when
the convergence condition is met along a trace. -/
def waitScan (aDiff : ℚ → ℚ → ℚ) (cfg : WaitCfg) :
    List (Option Obs × ℚ) → WaitState → List (WaitState × Bool × WaitState)
  | [], _ => []
  | (r, dt) :: rest, s =>
    let s0 := applyRefill r s
    let p := pollOnce aDiff cfg s0
    let s2 := { p.1 with elapsed := p.1.elapsed + dt }
    (p.1, p.2, s2) :: waitScan aDiff cfg rest s2

/-- The outgoing PendingAction record self._next_action.  In the
source it is a Python dict; fields absent from the dict are modelled
as none. -/
structure Action where
  joint : Option (List ℚ)
  manipBlocking : Option Bool
  xyt : Option (ℚ × ℚ × ℚ)
  navRelative : Option Bool
  navBlocking : Option Bool
  gripper : Option ℚ
  gripperBlocking : Option Bool
  controlMode : Option String
  posture : Option String
  step : Option ℤ
deriving Repr, DecidableEq

/-- The empty pending action (a fresh dict). -/
def Action.empty : Action :=
  ⟨none, none, none, none, none, none, none, none, none, none⟩

/-- Client-side command state: the send counter self._iter and the
pending action self._next_action. -/
structure ClientState where
  iter : ℤ
  nextAction : Action
deriving Repr, DecidableEq

/-- Client state after HomeRobotZmqClient.reset: _iter = 0 and an
empty pending action. -/
def clientInit : ClientState :=
  { iter := 0, nextAction := Action.empty }

/-- Externally visible effects of the command primitives: a message
transmitted on the send socket, a fixed sleep, or a call to the
convergence wait _wait_for_action with the given block id, optional
goal angle and timeout. -/
inductive Event
  | sent (a : Action)
  | slept (d : ℚ)
  | waited (blockId : ℤ) (goalAngle : Option ℚ) (timeLimit : ℚ)
deriving Repr, DecidableEq

/-- Whether an event is a convergence wait. -/
def Event.isWaited : Event → Bool
  | .waited _ _ _ => true
  | _ => false

/-- Whether a list of events contains a convergence wait. -/
def hasWaited (evs : List Event) : Bool :=
  evs.any Event.isWaited

/-- HomeRobotZmqClient.send_action (zmq_client.py lines 460-487).
Under the action lock it reads the nav_blocking flag from the pending
action, stamps the pending action with the current value of the send
counter self._iter as its step id, increments the counter, transmits
the record, remembers the goal angle if an xyt target is present, and
swaps the pending action for an empty one.  It then sleeps 0.2 s and,
only if the nav_blocking flag was set, runs the convergence wait
followed by another 0.2 s sleep. -/
def sendAction (timeLimit : ℚ) (s : ClientState) : ClientState × List Event :=
  let blocking : Bool := s.nextAction.navBlocking.getD false
  let blockId : ℤ := s.iter
  let a : Action := { s.nextAction with step := some blockId }
  let goalAngle : Option ℚ := s.nextAction.xyt.map (fun p => p.2.2)
  let s1 : ClientState := { iter := s.iter + 1, nextAction := Action.empty }
  (s1, [Event.sent a, Event.slept 0.2] ++
    (if blocking then [Event.waited blockId goalAngle timeLimit, Event.slept 0.2]
     else []))

/-- Modelled from the spec: HelloStretchIdx and the conversion
config_to_manip_command live in stretch/motion/kinematics.py, which
is not among the provided sources.  Spec section 3 fixes the joint
enumeration order {base-x, lift, arm, wrist-roll, wrist-pitch,
wrist-yaw, gripper} and requires a 7-or-more-length full robot state
to be explicitly converted to the 6-dof manipulation state; with that
order the manipulation command is the first six entries. -/
def configToManipCommand (q : List ℚ) : List ℚ :=
  q.take 6

/-- HomeRobotZmqClient.arm_to (zmq_client.py lines 154-181).  A
vector longer than 6 is converted with config_to_manip_command; a
vector shorter than 6 raises ValueError before anything is sent;
otherwise the joint target and the manip_blocking flag are stored in
the pending action under the action lock and send_action is invoked
(with its default 10 s timeout). -/
def armTo (q : List ℚ) (blocking : Bool) (s : ClientState) :
    Except String (ClientState × List Event) :=
  let q1 := if 6 < q.length then configToManipCommand q else q
  if q1.length < 6 then
    .error "joint_angles must be 6 dimensional: base_x, lift, arm, wrist roll, wrist pitch, wrist yaw"
  else
    .ok (sendAction 10
      { s with nextAction :=
        { s.nextAction with joint := some q1, manipBlocking := some blocking } })

/-- HomeRobotZmqClient.navigate_to (zmq_client.py lines 183-194):
stores the xyt target and the relative and blocking flags in the
pending action under the action lock, then invokes send_action with
the caller's timeout. -/
def navigateTo (xyt : ℚ × ℚ × ℚ) (relative blocking : Bool) (timeLimit : ℚ)
    (s : ClientState) : ClientState × List Event :=
  sendAction timeLimit
    { s with nextAction :=
      { s.nextAction with xyt := some xyt, navRelative := some relative,
                          navBlocking := some blocking } }

/-- HomeRobotZmqClient.gripper_to (zmq_client.py lines 217-224):
stores the gripper target and blocking flag in the pending action
under the action lock, invokes send_action, and if blocking sleeps a
fixed 2 s afterwards. -/
def gripperTo (target : ℚ) (blocking : Bool) (s : ClientState) :
    ClientState × List Event :=
  let r := sendAction 10
    { s with nextAction :=
      { s.nextAction with gripper := some target, gripperBlocking := some blocking } }
  (r.1, r.2 ++ (if blocking then [Event.slept 2] else []))

/-- Events of an arm_to call that did not raise; a raised call has no
events (nothing was sent). -/
def exceptEvents : Except String (ClientState × List Event) → List Event
  | .ok r => r.2
  | .error _ => []

/-- Call-level trace of the trajectory executor: navigate_to calls
and wait_for_waypoint polls, with their arguments. -/
inductive TrajEvent
  | nav (xyt : ℚ × ℚ × ℚ) (relative : Bool) (blocking : Bool) (timeLimit : ℚ)
  | waitWp (xyt : ℚ × ℚ × ℚ) (posThr rotThr : ℚ) (rate : ℕ) (timeLimit : ℚ)
deriving Repr, DecidableEq

/-- HomeRobotZmqClient.execute_trajectory (zmq_client.py lines
376-407) as the trace of its navigate_to / wait_for_waypoint calls:
the for loop issues, for EVERY pose of the trajectory (including the
last), a non-blocking navigate_to (default 10 s timeout) followed by
a wait_for_waypoint poll; after the loop the last pose is issued once
more as a blocking navigate_to with the final timeout (and with the
relative flag left at its default False).  The trajectory must be
non-empty (on an empty list the Python code would fault on an
undefined loop variable). -/
def executeTrajectory (traj : List (ℚ × ℚ × ℚ)) (relative : Bool)
    (posThr rotThr : ℚ) (rate : ℕ)
    (perWaypointTimeLimit finalTimeLimit : ℚ) : List TrajEvent :=
  (traj.map (fun pt =>
    [TrajEvent.nav pt relative false 10,
     TrajEvent.waitWp pt posThr rotThr rate perWaypointTimeLimit])).flatten
  ++ (match traj.getLast? with
      | some pt => [TrajEvent.nav pt false true finalTimeLimit]
      | none => [])

/-- The per-sample success test of wait_for_waypoint (zmq_client.py
line 447): position error below pos_err_threshold (encoded squared)
and absolute signed heading difference below rot_err_threshold. -/
def waypointReached (aDiff : ℚ → ℚ → ℚ) (posThr rotThr : ℚ)
    (xyt curr : ℚ × ℚ × ℚ) : Bool :=
  decide (sqDist (curr.1, curr.2.1) (xyt.1, xyt.2.1) < posThr ^ 2) &&
    decide (|aDiff curr.2.2 xyt.2.2| < rotThr)

/-- The polling loop of HomeRobotZmqClient.wait_for_waypoint
(zmq_client.py lines 409-458).  Each input pair is (base pose read at
this iteration, wall-clock time this iteration consumed).  The
success test runs before the timeout test; on timeout the function
prints a warning and returns False; if the sample list is exhausted
(the _finish flag) it also returns False. -/
def waitForWaypoint (aDiff : ℚ → ℚ → ℚ) (posThr rotThr timeLimit : ℚ)
    (xyt : ℚ × ℚ × ℚ) : List ((ℚ × ℚ × ℚ) × ℚ) → ℚ → Bool
  | [], _ => false
  | (curr, dt) :: rest, elapsed =>
    if waypointReached aDiff posThr rotThr xyt curr then true
    else if timeLimit < elapsed + dt then false
    else waitForWaypoint aDiff posThr rotThr timeLimit xyt rest (elapsed + dt)

/-- The Observations record built by HomeRobotZmqClient.get_observation
from the raw slot contents. -/
structure Observations where
  gps : ℚ × ℚ
  compass : ℚ
  rgb : ℕ
  depth : ℕ
  xyz : ℕ
deriving Repr, DecidableEq

/-- HomeRobotZmqClient.get_observation (zmq_client.py lines 357-374):
under the observation lock, returns None when the slot is empty and
otherwise an Observations record projected from the slot. -/
def getObservation : Option Obs → Option Observations
  | none => none
  | some o => some ⟨(o.gpsX, o.gpsY), o.compass, o.rgb, o.depth, o.xyz⟩

/-- A 2D image stored as rows of pixels; pixel (y, x) is row y,
column x, matching numpy indexing image[y, x]. -/
abbrev Grid (α : Type) := List (List α)

/-- Pixel access with a default for out-of-range coordinates (the
claims only use in-range coordinates). -/
def gridGet (g : Grid α) (d : α) (y x : ℕ) : α :=
  (g.getD y []).getD x d

/-- Pointwise conjunction of two boolean images (np.bitwise_and). -/
def maskAnd (a b : Grid Bool) : Grid Bool :=
  List.zipWith (fun ra rb => List.zipWith and ra rb) a b

/-- Pointwise disjunction of two boolean images (np.bitwise_or). -/
def maskOr (a b : Grid Bool) : Grid Bool :=
  List.zipWith (fun ra rb => List.zipWith or ra rb) a b

/-- Number of true pixels of a boolean image (sum(mask.flatten())). -/
def maskCount (m : Grid Bool) : ℕ :=
  (m.map (fun r => r.countP (fun b => b))).sum

/-- All-false image of the same shape as the given id map
(np.zeros_like(...).astype(bool)). -/
def falseMask (g : Grid ℕ) : Grid Bool :=
  g.map (fun r => r.map (fun _ => false))

/-- The boolean image (g == iid) of pixels carrying a given id. -/
def eqMask (g : Grid ℕ) (iid : ℕ) : Grid Bool :=
  g.map (fun r => r.map (fun v => v == iid))

/-- Insertion into a sorted list, used to model np.unique. -/
def insertSorted (x : ℕ) : List ℕ → List ℕ
  | [] => [x]
  | y :: ys => if x ≤ y then x :: y :: ys else y :: insertSorted x ys

/-- np.unique: the sorted list of distinct values of an id map. -/
def uniqueIds (g : Grid ℕ) : List ℕ :=
  (g.flatten.dedup).foldr insertSorted []

/-- Whether the first list is a prefix of the second. -/
def charsPrefix : List Char → List Char → Bool
  | [], _ => true
  | _ :: _, [] => false
  | a :: as, b :: bs => a == b && charsPrefix as bs

/-- Whether the first list occurs contiguously inside the second. -/
def charsInfix (needle : List Char) : List Char → Bool
  | [] => charsPrefix needle []
  | c :: cs => charsPrefix needle (c :: cs) || charsInfix needle cs

/-- Python substring membership (needle in hay) on strings. -/
def isSubstring (needle hay : String) : Bool :=
  charsInfix needle.toList hay.toList

/-- GraspObjectOperation.get_class_mask (grasp_object.py lines
53-67): starting from an all-false mask, for every id occurring in
the semantic map whose resolved class name exists and contains the
target object name, union in the pixels carrying that id. -/
def getClassMask (className : ℕ → Option String) (target : String)
    (semantic : Grid ℕ) : Grid Bool :=
  (uniqueIds semantic).foldl
    (fun m iid =>
      match className iid with
      | some name =>
        if isSubstring target name then maskOr m (eqMask semantic iid) else m
      | none => m)
    (falseMask semantic)

/-- The accumulator update of get_target_mask: a candidate (mask,
pixel count) replaces the tracked one exactly when its count is
strictly larger; the initial tracked value none stands for the
(None, float(-inf)) pair, so the very first candidate always
replaces it. -/
def updateMax (c : Grid Bool × ℕ) :
    Option (Grid Bool × ℕ) → Option (Grid Bool × ℕ)
  | none => some c
  | some c0 => if c0.2 < c.2 then some c else some c0

/-- The per-instance loop of GraspObjectOperation.get_target_mask
(grasp_object.py lines 97-123).  For each instance id, in np.unique
order: if the aim-center pixel is inside both the class mask and this
instance's mask, return that instance mask immediately (short
circuit); otherwise, when a previous mask is available, track the
instance-and-previous-and-class intersection with the strictly
largest pixel count, and always track the instance-and-class
intersection with the strictly largest pixel count. -/
def targetMaskLoop (classMask : Grid Bool) (instanceMap : Grid ℕ)
    (cx cy : ℕ) (prevMask : Option (Grid Bool)) :
    List ℕ → Option (Grid Bool × ℕ) → Option (Grid Bool × ℕ) →
    Option (Grid Bool) × Option (Grid Bool × ℕ) × Option (Grid Bool × ℕ)
  | [], best, over => (none, best, over)
  | iid :: rest, best, over =>
    let cur := eqMask instanceMap iid
    if gridGet classMask false cy cx = true ∧ gridGet cur false cy cx = true then
      (some cur, best, over)
    else
      let over1 := match prevMask with
        | some pm =>
          let m := maskAnd (maskAnd cur pm) classMask
          updateMax (m, maskCount m) over
        | none => over
      let m2 := maskAnd cur classMask
      let best1 := updateMax (m2, maskCount m2) best
      targetMaskLoop classMask instanceMap cx cy prevMask rest best1 over1

/-- GraspObjectOperation.get_target_mask (grasp_object.py lines
69-130).  center is (center_x, center_y).  After the per-instance
loop: if the loop short-circuited, that mask is returned; else if the
largest previous-mask overlap count strictly exceeds
min_points_to_approach the overlap candidate is returned; else the
best candidate whenever one was set (which happens as soon as the
instance map has any id at all); else the previous mask. -/
def getTargetMask (className : ℕ → Option String) (target : String)
    (semantic instanceMap : Grid ℕ) (center : ℕ × ℕ) (minPts : ℕ)
    (prevMask : Option (Grid Bool)) : Option (Grid Bool) :=
  let classMask := getClassMask className target semantic
  match targetMaskLoop classMask instanceMap center.1 center.2 prevMask
      (uniqueIds instanceMap) none none with
  | (some sc, _, _) => some sc
  | (none, best, over) =>
    let overBig : Bool := match over with
      | some p => decide (minPts < p.2)
      | none => false
    if overBig then
      over.map Prod.fst
    else
      match best with
      | some p => some p.1
      | none => prevMask

/-- Configuration constants of GraspObjectOperation (grasp_object.py
lines 30-43) used by the servo loop. -/
structure ServoCfg where
  alignXThreshold : ℚ
  alignYThreshold : ℚ
  minPointsToApproach : ℕ
  medianDistanceWhenGrasping : ℚ
  liftArmRatio : ℚ
  baseXStep : ℚ
  wristPitchStep : ℚ
deriving Repr, DecidableEq

/-- The default values from the class body: align thresholds 15 and
10 pixels, min_points_to_approach 100, median_distance_when_grasping
0.175 m, lift_arm_ratio 0.1, base_x_step 0.12 m, wrist_pitch_step
0.1 rad. -/
def servoDefaults : ServoCfg :=
  { alignXThreshold := 15, alignYThreshold := 10, minPointsToApproach := 100,
    medianDistanceWhenGrasping := 0.175, liftArmRatio := 0.1,
    baseXStep := 0.12, wristPitchStep := 0.1 }

/-- Per-iteration perception and joint-state inputs of the servo
loop, as computed in visual_servo_to_object before the decision
logic: the target-mask pixel count, whether the aim-center pixel is
inside the target mask, the aim-center depth and the median mask
depth in meters, the pixel offsets dx and dy of the mask centroid
from the aim center, the world xyz under the mask center, the mask
image dimensions, the joint values read this iteration, and the
cosine and sine of the current wrist pitch (transcendental values
supplied as inputs). -/
structure ServoFrame where
  maskPts : ℕ
  centerInMask : Bool
  centerDepth : ℚ
  medianObjectDepth : ℚ
  dx : ℚ
  dy : ℚ
  maskXyz : ℚ × ℚ × ℚ
  maskWidth : ℕ
  maskHeight : ℕ
  baseX : ℚ
  lift : ℚ
  arm : ℚ
  wristPitch : ℚ
  cosPitch : ℚ
  sinPitch : ℚ
deriving Repr, DecidableEq

/-- Mutable locals of visual_servo_to_object that survive from one
iteration to the next: aligned_once, failed_counter, the last known
object location current_xyz, and the success flag. -/
structure ServoState where
  alignedOnce : Bool
  failedCounter : ℕ
  currentXyz : Option (ℚ × ℚ × ℚ)
  success : Bool
deriving Repr, DecidableEq

/-- The loop's starting state (grasp_object.py lines 155-167). -/
def servoInit : ServoState :=
  { alignedOnce := false, failedCounter := 0, currentXyz := none, success := false }

/-- Motion commands issued by the servo loop: the gripper close and
fixed lift of _grasp, or an arm_to joint command
[base_x, lift, arm, 0, wrist_pitch, 0]. -/
inductive RobotCmd
  | closeGripper
  | liftArm
  | moveArm (baseX lift arm roll pitch yaw : ℚ)
deriving Repr, DecidableEq

/-- How one servo iteration ends. -/
inductive ServoOutcome
  | returnFail
  | skipIteration
  | fallbackOpenLoop (xyz : Option (ℚ × ℚ × ℚ))
  | graspAndContinue
  | continueNoMotion
  | graspAndBreak
  | moveAndContinue
deriving Repr, DecidableEq

/-- One iteration of the decision logic of
GraspObjectOperation.visual_servo_to_object (grasp_object.py lines
204-327), given the per-frame inputs.  Returns the successor state,
how the iteration ends, and the motion commands it issues.
If the mask is empty: fail when never aligned, skip while the
failure counter is below 5, else fall back to the open-loop grasp at
the last known location.  Otherwise the counter resets and the last
known location updates.  With more than min_points_to_approach mask
pixels: grasp and break when the center pixel is in the mask and
either depth is below the grasp distance; else when |dx| and |dy| are
within the align thresholds, grasp and break when the center depth is
below the grasp distance, else mark aligned_once and advance arm and
lift along the wrist direction; else proportionally step the base x
and wrist pitch.  With a nonempty mask of at most
min_points_to_approach pixels: grasp (and keep looping) when the
center depth is below the grasp distance, else do nothing this
iteration. -/
def servoStep (cfg : ServoCfg) (f : ServoFrame) (s : ServoState) :
    ServoState × ServoOutcome × List RobotCmd :=
  if f.maskPts = 0 then
    if s.alignedOnce = false then (s, .returnFail, [])
    else if s.failedCounter < 5 then
      ({ s with failedCounter := s.failedCounter + 1 }, .skipIteration, [])
    else (s, .fallbackOpenLoop s.currentXyz, [])
  else
    let s1 := { s with failedCounter := 0, currentXyz := some f.maskXyz }
    if cfg.minPointsToApproach < f.maskPts then
      if f.centerInMask = true ∧
          (f.centerDepth < cfg.medianDistanceWhenGrasping ∨
            f.medianObjectDepth < cfg.medianDistanceWhenGrasping) then
        ({ s1 with success := true }, .graspAndBreak, [.closeGripper, .liftArm])
      else if |f.dx| < cfg.alignXThreshold ∧ |f.dy| < cfg.alignYThreshold then
        if f.centerDepth < cfg.medianDistanceWhenGrasping then
          ({ s1 with success := true }, .graspAndBreak, [.closeGripper, .liftArm])
        else
          let arm1 := f.arm + f.cosPitch * cfg.liftArmRatio
          let lift1 := f.lift + f.sinPitch * cfg.liftArmRatio
          ({ s1 with alignedOnce := true }, .moveAndContinue,
            [.moveArm f.baseX lift1 arm1 0 f.wristPitch 0])
      else
        let px := max 0.25 |2 * f.dx / (f.maskWidth : ℚ)|
        let py := max 0.25 |2 * f.dy / (f.maskHeight : ℚ)|
        let baseX1 :=
          if cfg.alignXThreshold < f.dx then f.baseX - cfg.baseXStep * px
          else if f.dx < -cfg.alignXThreshold then f.baseX + cfg.baseXStep * px
          else f.baseX
        let pitch1 :=
          if cfg.alignYThreshold < f.dy then f.wristPitch - cfg.wristPitchStep * py
          else if f.dy < -cfg.alignYThreshold then f.wristPitch + cfg.wristPitchStep * py
          else f.wristPitch
        (s1, .moveAndContinue, [.moveArm baseX1 f.lift f.arm 0 pitch1 0])
    else
      if f.centerDepth < cfg.medianDistanceWhenGrasping then
        ({ s1 with success := true }, .graspAndContinue, [.closeGripper, .liftArm])
      else (s1, .continueNoMotion, [])

/-- How a whole visual_servo_to_object run ends: the wall-clock
budget expires and the current success flag is returned, the
never-aligned empty-mask failure returns False, the loop escalates to
grasp_open_loop at the recorded location, or a grasp breaks out of
the loop. -/
inductive ServoResult
  | timedOut (success : Bool)
  | failedNoTrack
  | fallback (xyz : Option (ℚ × ℚ × ℚ))
  | grasped
deriving Repr, DecidableEq

/-- The servoing loop of visual_servo_to_object: one frame input per
iteration; the finite frame list models the wall-clock bound
max_duration.  Also accumulates every motion command issued. -/
def servoRun (cfg : ServoCfg) : List ServoFrame → ServoState →
    ServoResult × List RobotCmd
  | [], s => (.timedOut s.success, [])
  | f :: rest, s =>
    let r := servoStep cfg f s
    match r.2.1 with
    | .returnFail => (.failedNoTrack, r.2.2)
    | .fallbackOpenLoop xyz => (.fallback xyz, r.2.2)
    | .graspAndBreak => (.grasped, r.2.2)
    | _ =>
      let q := servoRun cfg rest r.1
      (q.1, r.2.2 ++ q.2)

/-- The result object of manip_ik_for_grasp_frame as consumed by
grasp_open_loop: the solver success flag and the components of the
returned joint target that the code inspects (base x, lift, arm). -/
structure IKResult where
  success : Bool
  baseX : ℚ
  lift : ℚ
  arm : ℚ
deriving Repr, DecidableEq

/-- External calls made by grasp_open_loop: the single IK solve, arm
motion commands, and the gripper close. -/
inductive OpenLoopEvent
  | ikSolve
  | armMove (baseX lift arm : ℚ) (blocking : Bool)
  | gripperClose
deriving Repr, DecidableEq

/-- Whether an open-loop event is a motion command. -/
def OpenLoopEvent.isMotion : OpenLoopEvent → Bool
  | .ikSolve => false
  | .armMove _ _ _ _ => true
  | .gripperClose => true

/-- GraspObjectOperation.grasp_open_loop (grasp_object.py lines
373-426): after the single IK solve the base-x component of the
target is shifted back by 0.04; if the solver reported failure, or
the solved arm or lift is negative, the success flag is set False and
the function returns with no motion issued; otherwise it moves to the
target (blocking), closes the gripper, lifts by lift_distance
(non-blocking), returns the arm to the initial configuration
(blocking), and sets the success flag True.  Takes the IK result and
the initial joint configuration components as inputs; the result is
(success flag, event trace). -/
def graspOpenLoop (ik : IKResult) (initBaseX initLift initArm : ℚ)
    (liftDistance : ℚ) : Bool × List OpenLoopEvent :=
  let t : IKResult := { ik with baseX := ik.baseX - 0.04 }
  if ik.success = false then (false, [.ikSolve])
  else if t.arm < 0 ∨ t.lift < 0 then (false, [.ikSolve])
  else
    (true,
      [.ikSolve,
       .armMove t.baseX t.lift t.arm true,
       .gripperClose,
       .armMove t.baseX (t.lift + liftDistance) t.arm false,
       .armMove initBaseX initLift initArm true])

/-- Whether a wait run ended because the finite input trace was
exhausted (the marker used to express bounded termination). -/
def isFuelOut : WaitResult → Bool
  | .fuelOut _ => true
  | _ => false

theorem pollOnce_success (aDiff : ℚ → ℚ → ℚ) (cfg : WaitCfg) (s s' : WaitState)
    (h : pollOnce aDiff cfg s = (s', true)) :
    cfg.blockId ≤ s.lastStep ∧ cfg.minStepsNotMoving < s'.notMovingCount ∧
      s'.lastStep = s.lastStep ∧ s'.elapsed = s.elapsed ∧
      ∃ o, s.obs = some o ∧ o.atGoal = true ∧ s'.obs = some o := by
  rcases hobs : s.obs with _ | o
  · simp [pollOnce, hobs] at h
  · simp only [pollOnce, hobs] at h
    split at h
    · split at h
      · rename_i hc
        injection h with h1 h2
        subst h1
        exact ⟨hc.1, hc.2.2, rfl, rfl, o, rfl, hc.2.1, rfl⟩
      · injection h with h1 h2
        simp at h2
    · split at h
      · rename_i hc
        injection h with h1 h2
        subst h1
        exact ⟨hc.1, hc.2.2, rfl, rfl, o, rfl, hc.2.1, rfl⟩
      · injection h with h1 h2
        simp at h2

theorem pollOnce_fail_consumes (aDiff : ℚ → ℚ → ℚ) (cfg : WaitCfg)
    (s s' : WaitState) (o : Obs) (hobs : s.obs = some o)
    (h : pollOnce aDiff cfg s = (s', false)) : s'.obs = none := by
  simp only [pollOnce, hobs] at h
  split at h
  · split at h
    · injection h with h1 h2
      simp at h2
    · injection h with h1 h2
      subst h1
      rfl
  · split at h
    · injection h with h1 h2
      simp at h2
    · injection h with h1 h2
      subst h1
      rfl

theorem pollOnce_fst_elapsed (aDiff : ℚ → ℚ → ℚ) (cfg : WaitCfg) (s : WaitState) :
    ((pollOnce aDiff cfg s).1).elapsed = s.elapsed := by
  rcases hobs : s.obs with _ | o
  · simp [pollOnce, hobs]
  · simp only [pollOnce, hobs]
    split <;> split <;> rfl

theorem applyRefill_elapsed (r : Option Obs) (s : WaitState) :
    (applyRefill r s).elapsed = s.elapsed := by
  cases r <;> rfl

theorem waitRun_success_sound (aDiff : ℚ → ℚ → ℚ) (cfg : WaitCfg) :
    ∀ (inputs : List (Option Obs × ℚ)) (s s' : WaitState),
      waitRun aDiff cfg inputs s = .success s' →
      cfg.blockId ≤ s'.lastStep ∧ cfg.minStepsNotMoving < s'.notMovingCount ∧
        ∃ o, s'.obs = some o ∧ o.atGoal = true
  | [], s, s', h => by simp [waitRun] at h
  | (r, dt) :: rest, s, s', h => by
    simp only [waitRun] at h
    rcases hp : pollOnce aDiff cfg (applyRefill r s) with ⟨s1, b⟩
    rw [hp] at h
    cases b with
    | true =>
      simp at h
      subst h
      obtain ⟨_, h2, h3, _, o, _, h6, h7⟩ := pollOnce_success aDiff cfg _ s1 hp
      exact ⟨h3 ▸ (pollOnce_success aDiff cfg _ s1 hp).1, h2, o, h7, h6⟩
    | false =>
      simp at h
      split at h
      · simp at h
      · exact waitRun_success_sound aDiff cfg rest _ s' h

theorem waitRun_timeout_late (aDiff : ℚ → ℚ → ℚ) (cfg : WaitCfg) :
    ∀ (inputs : List (Option Obs × ℚ)) (s s' : WaitState),
      waitRun aDiff cfg inputs s = .timeoutErr s' → cfg.timeLimit < s'.elapsed
  | [], s, s', h => by simp [waitRun] at h
  | (r, dt) :: rest, s, s', h => by
    simp only [waitRun] at h
    rcases hp : pollOnce aDiff cfg (applyRefill r s) with ⟨s1, b⟩
    rw [hp] at h
    cases b with
    | true => simp at h
    | false =>
      simp at h
      split at h
      · rename_i hlt
        cases h
        exact hlt
      · exact waitRun_timeout_late aDiff cfg rest _ s' h

theorem waitRun_bounded (aDiff : ℚ → ℚ → ℚ) (cfg : WaitCfg) :
    ∀ (inputs : List (Option Obs × ℚ)) (s : WaitState),
      s.elapsed ≤ cfg.timeLimit →
      (∀ p ∈ inputs, (1 : ℚ)/100 ≤ p.2) →
      cfg.timeLimit < s.elapsed + inputs.length * ((1 : ℚ)/100) →
      isFuelOut (waitRun aDiff cfg inputs s) = false
  | [], s, h1, h2, h3 => by
    exfalso
    simp at h3
    exact absurd h3 (not_lt.mpr h1)
  | (r, dt) :: rest, s, h1, h2, h3 => by
    simp only [waitRun]
    rcases hp : pollOnce aDiff cfg (applyRefill r s) with ⟨s1, b⟩
    have hse : s1.elapsed = s.elapsed := by
      have := pollOnce_fst_elapsed aDiff cfg (applyRefill r s)
      rw [hp] at this
      rw [this, applyRefill_elapsed]
    cases b with
    | true => simp [isFuelOut]
    | false =>
      simp only [Bool.false_eq_true, if_false]
      split
      · simp [isFuelOut]
      · rename_i hle
        apply waitRun_bounded aDiff cfg rest _
        · simpa using not_lt.mp hle
        · exact fun p hp => h2 p (List.mem_cons_of_mem _ hp)
        · have hdt : (1 : ℚ)/100 ≤ dt := h2 (r, dt) (List.mem_cons_self _ _)
          simp only [List.length_cons] at h3
          simp only [hse]
          push_cast at h3 ⊢
          linarith

/-- Along an exit-free poll trace: some poll breaks out of the loop,
and every strictly earlier iteration ended with its post-sleep
elapsed time within the timeout budget (so the real loop reaches the
breaking poll). -/
def scanReachesSuccess (timeLimit : ℚ) :
    List (WaitState × Bool × WaitState) → Bool
  | [] => false
  | (_, b, s2) :: rest =>
    b || (decide (s2.elapsed ≤ timeLimit) && scanReachesSuccess timeLimit rest)

theorem waitRun_success_iff_scan (aDiff : ℚ → ℚ → ℚ) (cfg : WaitCfg) :
    ∀ (inputs : List (Option Obs × ℚ)) (s : WaitState),
      (∃ s', waitRun aDiff cfg inputs s = .success s') ↔
        scanReachesSuccess cfg.timeLimit (waitScan aDiff cfg inputs s) = true
  | [], s => by simp [waitRun, waitScan, scanReachesSuccess]
  | (r, dt) :: rest, s => by
    simp only [waitRun, waitScan]
    rcases hp : pollOnce aDiff cfg (applyRefill r s) with ⟨s1, b⟩
    cases b with
    | true => simp [scanReachesSuccess]
    | false =>
      simp only [Bool.false_eq_true, if_false, scanReachesSuccess, Bool.false_or]
      split
      · rename_i hlt
        constructor
        · rintro ⟨s', hs'⟩
          simp at hs'
        · intro hsc
          rw [Bool.and_eq_true, decide_eq_true_eq] at hsc
          exact absurd hlt (not_lt.mpr hsc.1)
      · rename_i hle
        rw [Bool.and_eq_true, decide_eq_true_eq]
        rw [waitRun_success_iff_scan aDiff cfg rest _]
        constructor
        · exact fun h => ⟨not_lt.mp hle, h⟩
        · exact fun h => h.2

/-- Plain subtraction standing in for angle_difference in concrete
traces.  All concrete traces below use equal headings, and any
angle-difference function consistent with the spec returns 0 on equal
headings, so the concrete results do not depend on this choice. -/
def subDiff : ℚ → ℚ → ℚ := fun a b => a - b

/-- A concrete observation: at the origin, at_goal reported, with
completed step 0. -/
def waitExObs : Obs :=
  { gpsX := 0, gpsY := 0, compass := 0, atGoal := true, step := 0,
    rgb := 0, depth := 0, xyz := 0 }

/-- The wait state at the start of a _wait_for_action call: empty
slot, loop locals reset (last step -1 as after reset). -/
def waitExInit : WaitState :=
  { obs := none, lastStep := -1, lastPos := none, lastAng := none,
    notMovingCount := 0, elapsed := 0 }

/-- A concrete wait configuration with min_steps_not_moving = 1 (the
default of the _wait_for_action signature) and a timeout that admits
exactly two polls. -/
def waitExCfg : WaitCfg :=
  { blockId := 0, timeLimit := 0.015, movingThreshold := 1,
    angleThreshold := 1, minStepsNotMoving := 1 }

/-- The same configuration with min_steps_not_moving = 0 and an ample
timeout. -/
def waitExCfg0 : WaitCfg :=
  { waitExCfg with timeLimit := 10, minStepsNotMoving := 0 }

/-- Two poll iterations, each delivered the same satisfying
observation, each taking the minimal 10 ms. -/
def waitExInputs : List (Option Obs × ℚ) :=
  [(some waitExObs, 0.01), (some waitExObs, 0.01)]

/-- The state in which the run of waitExCfg0 over waitExInputs breaks
out of the wait loop: the satisfying observation is still in the
slot. -/
def waitExFinal : WaitState :=
  { obs := some waitExObs, lastStep := 0, lastPos := some (0, 0),
    lastAng := some 0, notMovingCount := 1, elapsed := 1/100 }

/-- Counterexample to claim C2 as stated.  C2 asserts the convergence
wait returns success as soon as the completed-step id is at least the
sent id, at_goal is set, and the robot is not moving for AT LEAST
min_steps_not_moving consecutive polls.  In the concrete trace
waitExInputs with min_steps_not_moving = 1: every delivered
observation reports at_goal with completed step at least the block
id, the second poll observes the robot not moving for 1 consecutive
poll (so the claim condition holds there, within the timeout), no
poll breaks the loop, and the wait raises the timeout error - the
code requires STRICTLY MORE THAN min_steps_not_moving consecutive
not-moving polls (zmq_client.py line 323). -/
theorem claim_C2_counterexample :
    (waitExInputs.all fun p =>
      match p.1 with
      | some o => o.atGoal && decide (waitExCfg.blockId ≤ o.step)
      | none => true) = true ∧
    waitScan subDiff waitExCfg waitExInputs waitExInit =
      [({ obs := none, lastStep := 0, lastPos := some (0, 0), lastAng := some 0,
          notMovingCount := 0, elapsed := 0 }, false,
        { obs := none, lastStep := 0, lastPos := some (0, 0), lastAng := some 0,
          notMovingCount := 0, elapsed := 1/100 }),
       ({ obs := none, lastStep := 0, lastPos := some (0, 0), lastAng := some 0,
          notMovingCount := 1, elapsed := 1/100 }, false,
        { obs := none, lastStep := 0, lastPos := some (0, 0), lastAng := some 0,
          notMovingCount := 1, elapsed := 1/50 })] ∧
    ((1 : ℚ)/100 ≤ waitExCfg.timeLimit ∧ waitExCfg.minStepsNotMoving ≤ 1) ∧
    waitRun subDiff waitExCfg waitExInputs waitExInit =
      .timeoutErr { obs := none, lastStep := 0, lastPos := some (0, 0),
                    lastAng := some 0, notMovingCount := 1, elapsed := 1/50 } := by
  refine ⟨by decide, ?_, by norm_num [waitExCfg], ?_⟩ <;>
    norm_num [waitScan, waitRun, waitExInputs, waitExCfg, waitExInit, waitExObs,
      applyRefill, updateObs, pollOnce, sqDist, subDiff]

/-- Claim C2 (amended): the convergence wait returns success exactly
when, at some poll of the trace reached within the timeout budget,
the server-reported last-completed-step id is at least the sent block
id, the polled observation reports at_goal, and the robot has been
observed not-moving (position delta below moving_threshold, heading
delta below angle_threshold) for STRICTLY MORE THAN
min_steps_not_moving consecutive polls; on success the final state
satisfies exactly these conditions; when it raises the timeout error
the elapsed time strictly exceeds the timeout (it fails at or after
the boundary); and with every iteration taking at least the 10 ms
sleep, the loop exits within a bounded number of polls (never waits
indefinitely). -/
theorem claim_C2 (aDiff : ℚ → ℚ → ℚ) (cfg : WaitCfg)
    (inputs : List (Option Obs × ℚ)) (s : WaitState) :
    (∀ s', waitRun aDiff cfg inputs s = .success s' →
      cfg.blockId ≤ s'.lastStep ∧ cfg.minStepsNotMoving < s'.notMovingCount ∧
        ∃ o, s'.obs = some o ∧ o.atGoal = true) ∧
    ((∃ s', waitRun aDiff cfg inputs s = .success s') ↔
      scanReachesSuccess cfg.timeLimit (waitScan aDiff cfg inputs s) = true) ∧
    (∀ s', waitRun aDiff cfg inputs s = .timeoutErr s' → cfg.timeLimit < s'.elapsed) ∧
    (s.elapsed ≤ cfg.timeLimit → (∀ p ∈ inputs, (1 : ℚ)/100 ≤ p.2) →
      cfg.timeLimit < s.elapsed + inputs.length * ((1 : ℚ)/100) →
      isFuelOut (waitRun aDiff cfg inputs s) = false) :=
  ⟨fun s' => waitRun_success_sound aDiff cfg inputs s s',
   waitRun_success_iff_scan aDiff cfg inputs s,
   fun s' => waitRun_timeout_late aDiff cfg inputs s s',
   waitRun_bounded aDiff cfg inputs s⟩

/-- Witness for claim C2 at a concrete input: the bounded-exit
component applied to the two-poll trace shows the wait does not
exhaust its input trace. -/
theorem claim_C2_witness :
    isFuelOut (waitRun subDiff waitExCfg waitExInputs waitExInit) = false :=
  (claim_C2 subDiff waitExCfg waitExInputs waitExInit).2.2.2
    (by norm_num [waitExInit, waitExCfg])
    (by norm_num [waitExInputs])
    (by norm_num [waitExInit, waitExCfg, waitExInputs])

/-- Counterexample to claim C10 as stated.  C10 asserts that after a
blocking command returns, get_observation can return an absent value
until the receive loop publishes a new frame.  In the code the break
out of the wait loop happens BEFORE the slot-clearing assignment
(zmq_client.py lines 320-326), so a successful wait always leaves the
satisfying observation in the slot: in the concrete successful run
below the final slot holds the observation and get_observation
returns a present value. -/
theorem claim_C10_counterexample :
    waitRun subDiff waitExCfg0 waitExInputs waitExInit = .success waitExFinal ∧
    getObservation waitExFinal.obs =
      some { gps := (0, 0), compass := 0, rgb := 0, depth := 0, xyz := 0 } := by
  refine ⟨?_, by rfl⟩
  norm_num [waitRun, waitExInputs, waitExCfg0, waitExCfg, waitExInit, waitExObs,
    waitExFinal, applyRefill, updateObs, pollOnce, sqDist, subDiff]

/-- Claim C10 (amended): every poll of the convergence wait that
finds an observation in the shared slot but does not meet the
completion condition clears the slot (the wait consumes
observations, and get_observation would then return an absent
value); but the completing poll breaks before the clearing
assignment, so after a successful wait the slot still holds the
observation that satisfied the condition and get_observation returns
it as a present value. -/
theorem claim_C10 (aDiff : ℚ → ℚ → ℚ) (cfg : WaitCfg) :
    (∀ s s' o, s.obs = some o → pollOnce aDiff cfg s = (s', false) →
      s'.obs = none ∧ getObservation s'.obs = none) ∧
    (∀ inputs s s', waitRun aDiff cfg inputs s = .success s' →
      ∃ o, s'.obs = some o ∧
        getObservation s'.obs =
          some { gps := (o.gpsX, o.gpsY), compass := o.compass,
                 rgb := o.rgb, depth := o.depth, xyz := o.xyz }) := by
  constructor
  · intro s s' o ho hp
    have h := pollOnce_fail_consumes aDiff cfg s s' o ho hp
    exact ⟨h, by rw [h]; rfl⟩
  · intro inputs s s' h
    obtain ⟨_, _, o, ho, _⟩ := waitRun_success_sound aDiff cfg inputs s s' h
    exact ⟨o, ho, by rw [ho]; rfl⟩

/-- Witness for claim C10 at a concrete input: the
successful-wait component applied to the concrete successful run. -/
theorem claim_C10_witness :
    ∃ o, waitExFinal.obs = some o ∧
      getObservation waitExFinal.obs =
        some { gps := (o.gpsX, o.gpsY), compass := o.compass,
               rgb := o.rgb, depth := o.depth, xyz := o.xyz } :=
  (claim_C10 subDiff waitExCfg0).2 waitExInputs waitExInit waitExFinal
    (by norm_num [waitRun, waitExInputs, waitExCfg0, waitExCfg, waitExInit,
      waitExObs, waitExFinal, applyRefill, updateObs, pollOnce, sqDist, subDiff])

/-- The action records transmitted on the send socket within a list
of events. -/
def sentActions (evs : List Event) : List Action :=
  evs.filterMap fun e =>
    match e with
    | .sent a => some a
    | _ => none

/-- Whether an arm_to call returned normally (did not raise). -/
def exceptOk : Except String (ClientState × List Event) → Bool
  | .ok _ => true
  | .error _ => false

theorem sendAction_sent (t : ℚ) (s : ClientState) :
    sentActions (sendAction t s).2 = [{ s.nextAction with step := some s.iter }] ∧
    (sendAction t s).1 = { iter := s.iter + 1, nextAction := Action.empty } := by
  constructor
  · cases hb : s.nextAction.navBlocking.getD false <;>
      simp [sendAction, sentActions, hb]
  · rfl

theorem armTo_ok (q : List ℚ) (b : Bool) (s : ClientState)
    (h6 : ¬ ((if 6 < q.length then configToManipCommand q else q).length < 6)) :
    armTo q b s = .ok (sendAction 10
      { s with nextAction :=
        { s.nextAction with
          joint := some (if 6 < q.length then configToManipCommand q else q),
          manipBlocking := some b } }) := by
  simp only [armTo]
  rw [if_neg h6]

/-- Counterexample to claim C1 as stated.  C1 asserts that whenever
the caller passed blocking=True the command does not return until the
convergence wait has completed.  But send_action reads only the
nav_blocking flag (zmq_client.py line 466): a blocking arm_to call
returns normally and its event trace contains no convergence wait,
and a blocking gripper_to call likewise performs no convergence wait
(it sleeps a fixed 2 s instead). -/
theorem claim_C1_counterexample :
    exceptOk (armTo [0, 0, 0, 0, 0, 0] true clientInit) = true ∧
    hasWaited (exceptEvents (armTo [0, 0, 0, 0, 0, 0] true clientInit)) = false ∧
    hasWaited (gripperTo 0.5 true clientInit).2 = false := by
  exact ⟨rfl, rfl, rfl⟩

/-- Claim C1 (amended): starting from a clean pending action, every
command primitive mutates the shared pending-action record (under the
action lock) and triggers a send that stamps it with the next
monotonically increasing step id (the current send counter, which is
then incremented), transmits exactly that record, and clears the
pending action; but the convergence wait runs only when the record's
nav_blocking flag is set, i.e. only for blocking navigate_to calls:
arm_to and gripper_to transmit their blocking flags to the robot yet
return without any client-side convergence wait (a blocking
gripper_to sleeps a fixed 2 s instead). -/
theorem claim_C1 (s : ClientState) (hclean : s.nextAction = Action.empty)
    (q : List ℚ) (b : Bool) (xyt : ℚ × ℚ × ℚ) (relative : Bool) (t g : ℚ) :
    (∀ r, armTo q b s = .ok r →
      r.1 = { iter := s.iter + 1, nextAction := Action.empty } ∧
      sentActions r.2 =
        [{ Action.empty with
            joint := some (if 6 < q.length then configToManipCommand q else q),
            manipBlocking := some b, step := some s.iter }] ∧
      hasWaited r.2 = false) ∧
    (navigateTo xyt relative b t s =
      ({ iter := s.iter + 1, nextAction := Action.empty },
       [Event.sent { Action.empty with
                     xyt := some xyt,
                     navRelative := some relative,
                     navBlocking := some b,
                     step := some s.iter },
        Event.slept 0.2] ++
       (if b then [Event.waited s.iter (some xyt.2.2) t, Event.slept 0.2] else []))) ∧
    (gripperTo g b s =
      ({ iter := s.iter + 1, nextAction := Action.empty },
       [Event.sent { Action.empty with
                     gripper := some g,
                     gripperBlocking := some b,
                     step := some s.iter },
        Event.slept 0.2] ++ (if b then [Event.slept 2] else []))) ∧
    hasWaited (gripperTo g b s).2 = false := by
  obtain ⟨it, na⟩ := s
  simp only at hclean
  subst hclean
  refine ⟨?_, ?_, ?_, ?_⟩
  · intro r h
    simp only [armTo] at h
    split at h
    · rename_i h7
      split at h
      · exact Except.noConfusion h
      · injection h with h1
        subst h1
        refine ⟨rfl, ?_, rfl⟩
        rw [(sendAction_sent 10 _).1, if_pos h7]
    · rename_i h7
      split at h
      · exact Except.noConfusion h
      · injection h with h1
        subst h1
        refine ⟨rfl, ?_, rfl⟩
        rw [(sendAction_sent 10 _).1, if_neg h7]
  · cases b <;> rfl
  · cases b <;> rfl
  · cases b <;> rfl

/-- Witness for claim C1 at a concrete input: a blocking navigate_to
from the reset client state, whose trace contains the convergence
wait for step id 0. -/
theorem claim_C1_witness :
    navigateTo (1, 2, 3) false true 10 clientInit =
      ({ iter := clientInit.iter + 1, nextAction := Action.empty },
       [Event.sent { Action.empty with
                     xyt := some (1, 2, 3),
                     navRelative := some false,
                     navBlocking := some true,
                     step := some clientInit.iter },
        Event.slept 0.2] ++
       (if true then [Event.waited clientInit.iter (some (1, 2, 3).2.2) 10,
                      Event.slept 0.2] else [])) :=
  (claim_C1 clientInit rfl [] true (1, 2, 3) false 10 0).2.1

/-- Claim C9: arm_to sends exactly a 6-element manipulation command:
a vector shorter than 6 raises with nothing sent, a length-6 vector
is sent unchanged, a vector of length 7 or more is converted with
config_to_manip_command to a 6-entry vector and the raw vector is
never sent; every transmitted arm_to record carries a joint target of
length exactly 6. -/
theorem claim_C9 (s : ClientState) (q : List ℚ) (b : Bool) :
    (q.length < 6 → armTo q b s =
      .error "joint_angles must be 6 dimensional: base_x, lift, arm, wrist roll, wrist pitch, wrist yaw") ∧
    (q.length = 6 → ∃ r, armTo q b s = .ok r ∧
      sentActions r.2 =
        [{ s.nextAction with
           joint := some q,
           manipBlocking := some b,
           step := some s.iter }]) ∧
    (6 < q.length → ∃ r, armTo q b s = .ok r ∧
      sentActions r.2 =
        [{ s.nextAction with
           joint := some (configToManipCommand q),
           manipBlocking := some b,
           step := some s.iter }] ∧
      (configToManipCommand q).length = 6 ∧ configToManipCommand q ≠ q) ∧
    (∀ r a, armTo q b s = .ok r → a ∈ sentActions r.2 →
      ∃ v, a.joint = some v ∧ v.length = 6) := by
  have htake : (configToManipCommand q).length = min 6 q.length := by
    simp [configToManipCommand]
  refine ⟨?_, ?_, ?_, ?_⟩
  · intro h
    have hq : ¬ 6 < q.length := by omega
    simp only [armTo]
    rw [if_neg hq, if_pos h]
  · intro h
    have h6 : ¬ ((if 6 < q.length then configToManipCommand q else q).length < 6) := by
      rw [if_neg (by omega)]
      omega
    refine ⟨_, armTo_ok q b s h6, ?_⟩
    rw [(sendAction_sent 10 _).1]
    simp only
    rw [if_neg (by omega)]
  · intro h
    have h6 : ¬ ((if 6 < q.length then configToManipCommand q else q).length < 6) := by
      rw [if_pos h]
      omega
    refine ⟨_, armTo_ok q b s h6, ?_, ?_, ?_⟩
    · rw [(sendAction_sent 10 _).1]
      simp only
      rw [if_pos h]
    · omega
    · intro heq
      have := congrArg List.length heq
      rw [htake] at this
      omega
  · intro r a hr ha
    simp only [armTo] at hr
    split at hr
    · rename_i h7
      split at hr
      · exact Except.noConfusion hr
      · injection hr with h1
        subst h1
        rw [(sendAction_sent 10 _).1] at ha
        simp only [List.mem_singleton] at ha
        subst ha
        exact ⟨configToManipCommand q, rfl, by rw [htake]; omega⟩
    · rename_i h7
      split at hr
      · exact Except.noConfusion hr
      · rename_i hlen
        injection hr with h1
        subst h1
        rw [(sendAction_sent 10 _).1] at ha
        simp only [List.mem_singleton] at ha
        subst ha
        exact ⟨q, rfl, by omega⟩

/-- Witness for claim C9 at concrete inputs: an 8-entry full state is
converted to the 6-entry [1, 2, 3, 4, 5, 6] before being sent, and a
3-entry vector raises. -/
theorem claim_C9_witness :
    (armTo [1, 2, 3] false clientInit =
      .error "joint_angles must be 6 dimensional: base_x, lift, arm, wrist roll, wrist pitch, wrist yaw") ∧
    ∃ r, armTo [1, 2, 3, 4, 5, 6, 7, 8] false clientInit = .ok r ∧
      sentActions r.2 =
        [{ clientInit.nextAction with
           joint := some (configToManipCommand [1, 2, 3, 4, 5, 6, 7, 8]),
           manipBlocking := some false,
           step := some clientInit.iter }] ∧
      (configToManipCommand [1, 2, 3, 4, 5, 6, 7, 8]).length = 6 ∧
      configToManipCommand [1, 2, 3, 4, 5, 6, 7, 8] ≠ [1, 2, 3, 4, 5, 6, 7, 8] :=
  ⟨(claim_C9 clientInit [1, 2, 3] false).1 (by decide),
   (claim_C9 clientInit [1, 2, 3, 4, 5, 6, 7, 8] false).2.2.1 (by decide)⟩

/-- Whether a trajectory event is a wait_for_waypoint poll. -/
def TrajEvent.isPoll : TrajEvent → Bool
  | .waitWp _ _ _ _ _ => true
  | _ => false

/-- Whether a trajectory event is a blocking navigate_to. -/
def TrajEvent.isBlockingNav : TrajEvent → Bool
  | .nav _ _ b _ => b
  | _ => false

/-- The trajectory-executor call trace asserted by claim C8, written
from the claim's words (for comparison with the embedded
executeTrajectory): a non-blocking navigate_to followed by an active
poll for every pose EXCEPT the last, and the final pose alone issued
as one fully blocking navigate_to. -/
def claimedTrajTrace (traj : List (ℚ × ℚ × ℚ)) (relative : Bool)
    (posThr rotThr : ℚ) (rate : ℕ)
    (perWaypointTimeLimit finalTimeLimit : ℚ) : List TrajEvent :=
  (traj.dropLast.map (fun pt =>
    [TrajEvent.nav pt relative false 10,
     TrajEvent.waitWp pt posThr rotThr rate perWaypointTimeLimit])).flatten
  ++ (match traj.getLast? with
      | some pt => [TrajEvent.nav pt false true finalTimeLimit]
      | none => [])

theorem waitForWaypoint_true_sound (aDiff : ℚ → ℚ → ℚ)
    (posThr rotThr timeLimit : ℚ) (xyt : ℚ × ℚ × ℚ) :
    ∀ (samples : List ((ℚ × ℚ × ℚ) × ℚ)) (elapsed : ℚ),
      waitForWaypoint aDiff posThr rotThr timeLimit xyt samples elapsed = true →
      ∃ c ∈ samples, waypointReached aDiff posThr rotThr xyt c.1 = true
  | [], e, h => by simp [waitForWaypoint] at h
  | (curr, dt) :: rest, e, h => by
    simp only [waitForWaypoint] at h
    by_cases hr : waypointReached aDiff posThr rotThr xyt curr = true
    · exact ⟨(curr, dt), List.mem_cons_self _ _, hr⟩
    · rw [if_neg hr] at h
      split at h
      · exact absurd h (by simp)
      · obtain ⟨c, hc, hcr⟩ :=
          waitForWaypoint_true_sound aDiff posThr rotThr timeLimit xyt rest _ h
        exact ⟨c, List.mem_cons_of_mem _ hc, hcr⟩

theorem waitForWaypoint_never_reached (aDiff : ℚ → ℚ → ℚ)
    (posThr rotThr timeLimit : ℚ) (xyt : ℚ × ℚ × ℚ) :
    ∀ (samples : List ((ℚ × ℚ × ℚ) × ℚ)) (elapsed : ℚ),
      (∀ c ∈ samples, waypointReached aDiff posThr rotThr xyt c.1 = false) →
      waitForWaypoint aDiff posThr rotThr timeLimit xyt samples elapsed = false
  | [], e, h => by simp [waitForWaypoint]
  | (curr, dt) :: rest, e, h => by
    simp only [waitForWaypoint]
    rw [if_neg (by simp [h (curr, dt) (List.mem_cons_self _ _)])]
    split
    · rfl
    · exact waitForWaypoint_never_reached aDiff posThr rotThr timeLimit xyt rest _
        (fun c hc => h c (List.mem_cons_of_mem _ hc))

theorem trajLoopBlockingCount (relative : Bool) (posThr rotThr : ℚ) (rate : ℕ)
    (perWaypointTimeLimit : ℚ) :
    ∀ (traj : List (ℚ × ℚ × ℚ)),
      ((traj.map (fun pt =>
        [TrajEvent.nav pt relative false 10,
         TrajEvent.waitWp pt posThr rotThr rate perWaypointTimeLimit])).flatten.countP
          TrajEvent.isBlockingNav) = 0
  | [] => rfl
  | pt :: rest => by
    simp only [List.map_cons, List.flatten_cons, List.countP_append]
    rw [trajLoopBlockingCount relative posThr rotThr rate perWaypointTimeLimit rest]
    rfl

/-- Counterexample to claim C8 as stated.  C8 asserts that the poll
is issued for every pose EXCEPT the last and that the final pose
ALONE is issued as a blocking navigate_to.  In the code the for loop
runs over every pose including the last (zmq_client.py lines
392-406), so for a 2-pose trajectory the executor performs two polls
(one of them for the final pose) and then re-issues the final pose as
a blocking navigate_to; the trace the claim describes contains a
single poll and differs from the actual trace. -/
theorem claim_C8_counterexample :
    ((executeTrajectory [(0, 0, 0), (1, 1, 1)] false 0.2 0.75 10 10 20).countP
      TrajEvent.isPoll) = 2 ∧
    ((claimedTrajTrace [(0, 0, 0), (1, 1, 1)] false 0.2 0.75 10 10 20).countP
      TrajEvent.isPoll) = 1 ∧
    executeTrajectory [(0, 0, 0), (1, 1, 1)] false 0.2 0.75 10 10 20 ≠
      claimedTrajTrace [(0, 0, 0), (1, 1, 1)] false 0.2 0.75 10 10 20 :=
  ⟨rfl, rfl, fun h =>
    absurd (congrArg (List.countP TrajEvent.isPoll) h) (by decide)⟩

/-- Claim C8 (amended): the executor issues, for EVERY pose of the
trajectory (including the last), a non-blocking navigate_to followed
by an active poll with the given thresholds, rate and per-waypoint
timeout; afterwards the final pose is issued once more as the unique
fully blocking navigate_to of the trace (with its own final timeout
and the relative flag at its default).  The poll returns success only
when some polled base pose is within both the position and the
heading thresholds, and returns per-waypoint failure when no polled
pose ever is (in particular after the timeout). -/
theorem claim_C8 (traj : List (ℚ × ℚ × ℚ)) (relative : Bool)
    (posThr rotThr : ℚ) (rate : ℕ) (pT fT : ℚ)
    (aDiff : ℚ → ℚ → ℚ) (xyt : ℚ × ℚ × ℚ) (timeLimit : ℚ) :
    (∀ pt ∈ traj,
      TrajEvent.nav pt relative false 10 ∈
        executeTrajectory traj relative posThr rotThr rate pT fT ∧
      TrajEvent.waitWp pt posThr rotThr rate pT ∈
        executeTrajectory traj relative posThr rotThr rate pT fT) ∧
    (∀ h : traj ≠ [],
      (executeTrajectory traj relative posThr rotThr rate pT fT).getLast? =
        some (TrajEvent.nav (traj.getLast h) false true fT)) ∧
    (traj ≠ [] →
      (executeTrajectory traj relative posThr rotThr rate pT fT).countP
        TrajEvent.isBlockingNav = 1) ∧
    (∀ samples elapsed,
      waitForWaypoint aDiff posThr rotThr timeLimit xyt samples elapsed = true →
      ∃ c ∈ samples, waypointReached aDiff posThr rotThr xyt c.1 = true) ∧
    (∀ samples elapsed,
      (∀ c ∈ samples, waypointReached aDiff posThr rotThr xyt c.1 = false) →
      waitForWaypoint aDiff posThr rotThr timeLimit xyt samples elapsed = false) := by
  refine ⟨?_, ?_, ?_,
    waitForWaypoint_true_sound aDiff posThr rotThr timeLimit xyt,
    waitForWaypoint_never_reached aDiff posThr rotThr timeLimit xyt⟩
  · intro pt hpt
    constructor <;>
      (apply List.mem_append_left
       rw [List.mem_flatten]
       exact ⟨_, List.mem_map_of_mem _ hpt, by simp⟩)
  · intro h
    have hg := List.getLast?_eq_getLast traj h
    simp only [executeTrajectory, hg]
    exact List.getLast?_concat _
  · intro h
    have hg := List.getLast?_eq_getLast traj h
    simp only [executeTrajectory, hg, List.countP_append]
    rw [trajLoopBlockingCount relative posThr rotThr rate pT traj]
    rfl

/-- Witness for claim C8 at a concrete input: for a 2-pose
trajectory the last trace event is the blocking navigate_to of the
final pose. -/
theorem claim_C8_witness :
    (executeTrajectory [(0, 0, 0), (1, 1, 1)] false 0.2 0.75 10 10 20).getLast? =
      some (TrajEvent.nav
        (([(0, 0, 0), (1, 1, 1)] : List (ℚ × ℚ × ℚ)).getLast (List.cons_ne_nil _ _))
        false true 20) :=
  (claim_C8 [(0, 0, 0), (1, 1, 1)] false 0.2 0.75 10 10 20 subDiff (0, 0, 0) 10).2.1
    (List.cons_ne_nil _ _)

/-- Whether an open-loop event is the IK solver call. -/
def isIkSolve : OpenLoopEvent → Bool
  | .ikSolve => true
  | _ => false

/-- A concrete servo frame: the aim center inside a 200-pixel target
mask, median object depth 0.3 m, misaligned offsets. -/
def servoExFrame : ServoFrame :=
  { maskPts := 200, centerInMask := true, centerDepth := 1,
    medianObjectDepth := 0.3, dx := 100, dy := 100, maskXyz := (0, 0, 0),
    maskWidth := 320, maskHeight := 240, baseX := 0, lift := 0.5, arm := 0.3,
    wristPitch := -1, cosPitch := 0.54, sinPitch := -0.84 }

/-- A concrete servo frame with an empty target mask. -/
def servoExEmptyFrame : ServoFrame :=
  { maskPts := 0, centerInMask := false, centerDepth := 1,
    medianObjectDepth := 1, dx := 0, dy := 0, maskXyz := (0, 0, 0),
    maskWidth := 320, maskHeight := 240, baseX := 0, lift := 0, arm := 0,
    wristPitch := 0, cosPitch := 1, sinPitch := 0 }

/-- A servo state that has aligned at least once, with a recorded
last object location. -/
def servoExAligned : ServoState :=
  { alignedOnce := true, failedCounter := 0, currentXyz := some (1, 2, 3),
    success := false }

/-- Claim C4: in a servo iteration whose aim-center pixel is inside
the target mask (with enough mask pixels to approach) and whose
median object depth is at or above the 0.175 m close-range threshold,
the controller grasps (closes the gripper, lifts, terminates the loop
with success) when the center depth is 0.15 m, and does not command
any grasp when the center depth is 0.20 m. -/
theorem claim_C4 (f : ServoFrame) (s : ServoState)
    (hin : f.centerInMask = true)
    (hpts : servoDefaults.minPointsToApproach < f.maskPts)
    (hmed : servoDefaults.medianDistanceWhenGrasping ≤ f.medianObjectDepth) :
    ((servoStep servoDefaults { f with centerDepth := 0.15 } s).2.1 =
        ServoOutcome.graspAndBreak ∧
      (servoStep servoDefaults { f with centerDepth := 0.15 } s).1.success = true ∧
      (servoStep servoDefaults { f with centerDepth := 0.15 } s).2.2 =
        [RobotCmd.closeGripper, RobotCmd.liftArm]) ∧
    ((servoStep servoDefaults { f with centerDepth := 0.2 } s).2.1 ≠
        ServoOutcome.graspAndBreak ∧
      (servoStep servoDefaults { f with centerDepth := 0.2 } s).2.1 ≠
        ServoOutcome.graspAndContinue ∧
      RobotCmd.closeGripper ∉ (servoStep servoDefaults { f with centerDepth := 0.2 } s).2.2) := by
  obtain ⟨pts, cim, cd, md, dx, dy, mx, mw, mh, bx, lf, ar, wp, cp, sp⟩ := f
  simp only at hin hpts hmed
  subst hin
  have hne : ¬ pts = 0 := by
    simp only [servoDefaults] at hpts
    omega
  have hmd : ¬ (md < servoDefaults.medianDistanceWhenGrasping) := not_lt.mpr hmed
  constructor
  · simp only [servoStep]
    rw [if_neg hne, if_pos hpts, if_pos (by norm_num [servoDefaults])]
    exact ⟨rfl, rfl, rfl⟩
  · simp only [servoStep]
    rw [if_neg hne, if_pos hpts, if_neg (by
      rintro ⟨-, h | h⟩
      · norm_num [servoDefaults] at h
      · exact hmd h)]
    have hq : ¬ ((0.2 : ℚ) < servoDefaults.medianDistanceWhenGrasping) := by
      norm_num [servoDefaults]
    repeat' split
    all_goals try (rename_i hc; exact absurd hc hq)
    all_goals exact ⟨by simp, by simp, by simp⟩

/-- Witness for claim C4 at a concrete input. -/
theorem claim_C4_witness :
    (servoStep servoDefaults { servoExFrame with centerDepth := 0.15 } servoInit).2.1 =
        ServoOutcome.graspAndBreak ∧
      (servoStep servoDefaults { servoExFrame with centerDepth := 0.15 } servoInit).1.success = true ∧
      (servoStep servoDefaults { servoExFrame with centerDepth := 0.15 } servoInit).2.2 =
        [RobotCmd.closeGripper, RobotCmd.liftArm] :=
  (claim_C4 servoExFrame servoInit rfl (by decide)
    (by norm_num [servoDefaults, servoExFrame])).1

/-- Claim C5: a servo iteration with an empty target mask before any
alignment has happened makes visual_servo_to_object return failure
immediately, without issuing any arm, base or gripper command. -/
theorem claim_C5 (cfg : ServoCfg) (f : ServoFrame) (s : ServoState)
    (rest : List ServoFrame)
    (hm : f.maskPts = 0) (ha : s.alignedOnce = false) :
    servoStep cfg f s = (s, ServoOutcome.returnFail, []) ∧
    servoRun cfg (f :: rest) s = (ServoResult.failedNoTrack, []) := by
  have h1 : servoStep cfg f s = (s, ServoOutcome.returnFail, []) := by
    simp only [servoStep]
    rw [if_pos hm, if_pos ha]
  refine ⟨h1, ?_⟩
  simp only [servoRun, h1]

/-- Witness for claim C5 at a concrete input: an empty mask on the
very first frame from the initial loop state. -/
theorem claim_C5_witness :
    servoRun servoDefaults [servoExEmptyFrame] servoInit =
      (ServoResult.failedNoTrack, []) :=
  (claim_C5 servoDefaults servoExEmptyFrame servoInit [] rfl rfl).2

/-- Claim C6: after at least one prior alignment, an empty-mask servo
iteration with the consecutive-failure counter below 5 skips the
iteration without moving and increments the counter; with the counter
at 5 or more it invokes the open-loop grasp fallback with the last
known 3D object estimate; any non-empty mask resets the counter to
zero; and starting from a counter of zero, feeding 6 consecutive
empty-mask frames makes the first 5 iterations skip and the 6th
invoke the fallback with the recorded estimate, with no motion
command issued. -/
theorem claim_C6 (cfg : ServoCfg) (f g : ServoFrame) (s : ServoState)
    (p : ℚ × ℚ × ℚ) :
    (f.maskPts = 0 → s.alignedOnce = true → s.failedCounter < 5 →
      servoStep cfg f s =
        ({ s with failedCounter := s.failedCounter + 1 },
         ServoOutcome.skipIteration, [])) ∧
    (f.maskPts = 0 → s.alignedOnce = true → ¬ s.failedCounter < 5 →
      servoStep cfg f s = (s, ServoOutcome.fallbackOpenLoop s.currentXyz, [])) ∧
    (g.maskPts ≠ 0 → (servoStep cfg g s).1.failedCounter = 0) ∧
    (f.maskPts = 0 → s.alignedOnce = true → s.failedCounter = 0 →
      s.currentXyz = some p →
      servoRun cfg (List.replicate 6 f) s =
        (ServoResult.fallback (some p), [])) := by
  refine ⟨?_, ?_, ?_, ?_⟩
  · intro hm ha hc
    simp only [servoStep]
    rw [if_pos hm, if_neg (by simp [ha]), if_pos hc]
  · intro hm ha hc
    simp only [servoStep]
    rw [if_pos hm, if_neg (by simp [ha]), if_neg hc]
  · intro hg
    simp only [servoStep]
    rw [if_neg hg]
    repeat' split
    all_goals rfl
  · intro hm ha hc hx
    obtain ⟨a, c, x, su⟩ := s
    simp only at ha hc hx
    subst ha
    subst hc
    subst hx
    norm_num [List.replicate, servoRun, servoStep, hm]

/-- Witness for claim C6 at a concrete input: six empty frames after
an alignment trigger the fallback at the recorded point (1, 2, 3). -/
theorem claim_C6_witness :
    servoRun servoDefaults (List.replicate 6 servoExEmptyFrame) servoExAligned =
      (ServoResult.fallback (some (1, 2, 3)), []) :=
  (claim_C6 servoDefaults servoExEmptyFrame servoExEmptyFrame servoExAligned
    (1, 2, 3)).2.2.2 rfl rfl rfl rfl

/-- Claim C7: the open-loop grasp planner reports failure and issues
no motion command (its event trace is just the single IK solve)
whenever the IK solver reports no solution, or whenever the solved
arm or lift value is negative - in particular an IK result with
arm = -0.01 is rejected even when the solver returned success - and
the trace of every run contains exactly one IK solve (the solve is
never retried). -/
theorem claim_C7 (ik : IKResult) (ib il ia ld : ℚ) :
    (ik.success = false →
      graspOpenLoop ik ib il ia ld = (false, [OpenLoopEvent.ikSolve])) ∧
    (ik.arm < 0 ∨ ik.lift < 0 →
      graspOpenLoop ik ib il ia ld = (false, [OpenLoopEvent.ikSolve])) ∧
    ((graspOpenLoop ik ib il ia ld).2.countP isIkSolve = 1) ∧
    ((graspOpenLoop ik ib il ia ld).1 = false →
      (graspOpenLoop ik ib il ia ld).2 = [OpenLoopEvent.ikSolve]) := by
  obtain ⟨su, bx, lf, ar⟩ := ik
  refine ⟨?_, ?_, ?_, ?_⟩
  · intro hs
    simp only at hs
    subst hs
    rfl
  · intro hneg
    simp only at hneg
    cases su with
    | false => rfl
    | true =>
      simp only [graspOpenLoop]
      rw [if_neg (by simp), if_pos (by simpa using hneg)]
  · simp only [graspOpenLoop]
    repeat' split
    all_goals rfl
  · simp only [graspOpenLoop]
    split
    · exact fun _ => rfl
    · split
      · exact fun _ => rfl
      · intro hfalse
        simp at hfalse

/-- Witness for claim C7 at a concrete input: an IK result with
success = True but arm = -0.01 is rejected with no motion issued. -/
theorem claim_C7_witness :
    graspOpenLoop { success := true, baseX := 0.5, lift := 0.6, arm := -0.01 }
      0 0 0 0.2 = (false, [OpenLoopEvent.ikSolve]) :=
  (claim_C7 { success := true, baseX := 0.5, lift := 0.6, arm := -0.01 }
    0 0 0 0.2).2.1 (Or.inl (by norm_num))

/-- The maximum-tracking fold performed by the per-instance loop on
each candidate accumulator when no short circuit fires. -/
def foldMax (cand : ℕ → Grid Bool × ℕ) (l : List ℕ)
    (b : Option (Grid Bool × ℕ)) : Option (Grid Bool × ℕ) :=
  l.foldl (fun acc i => updateMax (cand i) acc) b

theorem foldMax_cons (cand : ℕ → Grid Bool × ℕ) (i : ℕ) (l : List ℕ)
    (b : Option (Grid Bool × ℕ)) :
    foldMax cand (i :: l) b = foldMax cand l (updateMax (cand i) b) := rfl

theorem updateMax_spec (c : Grid Bool × ℕ) (b : Option (Grid Bool × ℕ)) :
    ∃ r, updateMax c b = some r ∧ c.2 ≤ r.2 ∧
      (∀ q, b = some q → q.2 ≤ r.2) ∧ (r = c ∨ b = some r) := by
  cases b with
  | none => exact ⟨c, rfl, le_refl _, fun q hq => Option.noConfusion hq, Or.inl rfl⟩
  | some c0 =>
    by_cases h : c0.2 < c.2
    · refine ⟨c, by simp [updateMax, h], le_refl _, ?_, Or.inl rfl⟩
      intro q hq
      injection hq with hq
      subst hq
      exact le_of_lt h
    · refine ⟨c0, by simp [updateMax, h], not_lt.mp h, ?_, Or.inr rfl⟩
      intro q hq
      injection hq with hq
      subst hq
      exact le_refl _

theorem foldMax_isSome (cand : ℕ → Grid Bool × ℕ) :
    ∀ (l : List ℕ) (b : Option (Grid Bool × ℕ)),
      foldMax cand l b = none → b = none ∧ l = []
  | [], b, h => ⟨h, rfl⟩
  | i :: l, b, h => by
    rw [foldMax_cons] at h
    obtain ⟨hu, -⟩ := foldMax_isSome cand l _ h
    obtain ⟨r, hr, -⟩ := updateMax_spec (cand i) b
    rw [hr] at hu
    exact Option.noConfusion hu

theorem foldMax_mem (cand : ℕ → Grid Bool × ℕ) :
    ∀ (l : List ℕ) (b : Option (Grid Bool × ℕ)) (p : Grid Bool × ℕ),
      foldMax cand l b = some p → b = some p ∨ ∃ i ∈ l, p = cand i
  | [], b, p, h => Or.inl h
  | i :: l, b, p, h => by
    rw [foldMax_cons] at h
    rcases foldMax_mem cand l _ p h with hu | ⟨j, hj, hpj⟩
    · obtain ⟨r, hr, -, -, hro⟩ := updateMax_spec (cand i) b
      rw [hr] at hu
      injection hu with hu
      subst hu
      rcases hro with rfl | hb
      · exact Or.inr ⟨i, List.mem_cons_self _ _, rfl⟩
      · exact Or.inl hb
    · exact Or.inr ⟨j, List.mem_cons_of_mem _ hj, hpj⟩

theorem foldMax_start_le (cand : ℕ → Grid Bool × ℕ) :
    ∀ (l : List ℕ) (b : Option (Grid Bool × ℕ)) (q p : Grid Bool × ℕ),
      b = some q → foldMax cand l b = some p → q.2 ≤ p.2
  | [], b, q, p, hb, h => by
    rw [hb] at h
    injection h with h
    subst h
    exact le_refl _
  | i :: l, b, q, p, hb, h => by
    rw [foldMax_cons] at h
    obtain ⟨r, hr, -, hq, -⟩ := updateMax_spec (cand i) b
    exact le_trans (hq q hb) (foldMax_start_le cand l _ r p hr h)

theorem foldMax_cand_le (cand : ℕ → Grid Bool × ℕ) :
    ∀ (l : List ℕ) (b : Option (Grid Bool × ℕ)) (p : Grid Bool × ℕ),
      foldMax cand l b = some p → ∀ i ∈ l, (cand i).2 ≤ p.2
  | [], b, p, h, i, hi => absurd hi (List.not_mem_nil i)
  | j :: l, b, p, h, i, hi => by
    rw [foldMax_cons] at h
    rcases List.mem_cons.mp hi with rfl | hil
    · obtain ⟨r, hr, hcr, -, -⟩ := updateMax_spec (cand i) b
      exact le_trans hcr (foldMax_start_le cand l _ r p hr h)
    · exact foldMax_cand_le cand l _ p h i hil

theorem targetMaskLoop_no_sc (cm : Grid Bool) (g : Grid ℕ) (cx cy : ℕ)
    (pm : Option (Grid Bool)) (hsc : gridGet cm false cy cx = false) :
    ∀ (l : List ℕ) (b o : Option (Grid Bool × ℕ)),
      targetMaskLoop cm g cx cy pm l b o =
        (none,
         foldMax (fun i =>
           (maskAnd (eqMask g i) cm, maskCount (maskAnd (eqMask g i) cm))) l b,
         match pm with
         | some pmv =>
           foldMax (fun i =>
             (maskAnd (maskAnd (eqMask g i) pmv) cm,
              maskCount (maskAnd (maskAnd (eqMask g i) pmv) cm))) l o
         | none => o)
  | [], b, o => by cases pm <;> rfl
  | i :: l, b, o => by
    have hcond : ¬ (gridGet cm false cy cx = true ∧
        gridGet (eqMask g i) false cy cx = true) := by
      rintro ⟨h1, -⟩
      rw [hsc] at h1
      exact Bool.noConfusion h1
    cases pm with
    | none =>
      simp only [targetMaskLoop]
      rw [if_neg hcond]
      rw [foldMax_cons]
      exact targetMaskLoop_no_sc cm g cx cy none hsc l _ o
    | some pmv =>
      simp only [targetMaskLoop]
      rw [if_neg hcond]
      rw [foldMax_cons, foldMax_cons]
      exact targetMaskLoop_no_sc cm g cx cy (some pmv) hsc l _ _

theorem targetMaskLoop_sc (cm : Grid Bool) (g : Grid ℕ) (cx cy : ℕ)
    (pm : Option (Grid Bool)) (c : ℕ)
    (hclass : gridGet cm false cy cx = true)
    (hc : gridGet (eqMask g c) false cy cx = true)
    (huniq : ∀ j, gridGet (eqMask g j) false cy cx = true → j = c) :
    ∀ (l : List ℕ) (b o : Option (Grid Bool × ℕ)), c ∈ l →
      (targetMaskLoop cm g cx cy pm l b o).1 = some (eqMask g c)
  | [], b, o, hmem => absurd hmem (List.not_mem_nil c)
  | i :: l, b, o, hmem => by
    simp only [targetMaskLoop]
    by_cases hie : gridGet (eqMask g i) false cy cx = true
    · have hieq : i = c := huniq i hie
      subst hieq
      rw [if_pos ⟨hclass, hie⟩]
    · rw [if_neg (by rintro ⟨-, h2⟩; exact hie h2)]
      have hmem' : c ∈ l := by
        rcases List.mem_cons.mp hmem with rfl | h
        · exact absurd hc hie
        · exact h
      exact targetMaskLoop_sc cm g cx cy pm c hclass hc huniq l _ _ hmem'

theorem mem_insertSorted (a x : ℕ) :
    ∀ (l : List ℕ), a ∈ insertSorted x l ↔ a = x ∨ a ∈ l
  | [] => by simp [insertSorted]
  | y :: ys => by
    simp only [insertSorted]
    split
    · simp
    · rw [List.mem_cons, List.mem_cons, mem_insertSorted a x ys]
      tauto

theorem mem_uniqueIds (a : ℕ) (g : Grid ℕ) :
    a ∈ uniqueIds g ↔ a ∈ g.flatten := by
  unfold uniqueIds
  rw [← List.mem_dedup (a := a) (l := g.flatten)]
  generalize g.flatten.dedup = l
  induction l with
  | nil => simp
  | cons b l ih =>
    simp only [List.foldr_cons, mem_insertSorted, ih, List.mem_cons]

theorem gridGet_eqMask (g : Grid ℕ) (i : ℕ) (cy cx : ℕ)
    (hy : cy < g.length) (hx : cx < (g.getD cy []).length) :
    gridGet (eqMask g i) false cy cx = (gridGet g 0 cy cx == i) := by
  unfold gridGet eqMask
  have hx' : cx < (g[cy]).length := by
    rw [List.getD_eq_getElem _ _ hy] at hx
    exact hx
  rw [List.getD_eq_getElem _ _ hy]
  rw [List.getD_eq_getElem _ _ hx']
  have hy' : cy < (g.map (fun r => r.map (fun v => v == i))).length := by
    simpa using hy
  rw [List.getD_eq_getElem _ _ hy']
  simp only [List.getElem_map]
  have hx'' : cx < ((g[cy]).map (fun v => v == i)).length := by simpa using hx'
  rw [List.getD_eq_getElem _ _ hx'']
  simp only [List.getElem_map]

theorem gridGet_mem_flatten (g : Grid ℕ) (cy cx : ℕ)
    (hy : cy < g.length) (hx : cx < (g.getD cy []).length) :
    gridGet g 0 cy cx ∈ g.flatten := by
  unfold gridGet
  rw [List.mem_flatten]
  refine ⟨g.getD cy [], ?_, ?_⟩
  · rw [List.getD_eq_getElem _ _ hy]
    exact List.getElem_mem _
  · rw [List.getD_eq_getElem (g.getD cy []) _ hx]
    exact List.getElem_mem _

/-- The best candidate of get_target_mask for one instance id:
instance mask intersected with the class mask. -/
def bestCandidate (className : ℕ → Option String) (target : String)
    (semantic instanceMap : Grid ℕ) (i : ℕ) : Grid Bool :=
  maskAnd (eqMask instanceMap i) (getClassMask className target semantic)

/-- The continuity candidate of get_target_mask for one instance id:
instance mask intersected with the previous mask and the class
mask. -/
def continuityCandidate (className : ℕ → Option String) (target : String)
    (semantic instanceMap : Grid ℕ) (pm : Grid Bool) (i : ℕ) : Grid Bool :=
  maskAnd (maskAnd (eqMask instanceMap i) pm) (getClassMask className target semantic)

/-- A class-name table resolving id 7 to a name containing the
target token cup. -/
def exClassName : ℕ → Option String :=
  fun i => if i == 7 then some "a cup here" else none

/-- An 11 by 11 semantic map, all pixels of the cup class id 7. -/
def exSem : Grid ℕ :=
  List.replicate 11 (List.replicate 11 7)

/-- An 11 by 11 instance map: instance 1 at pixel (0,0), instance 2
on the other 120 pixels. -/
def exInst : Grid ℕ :=
  (1 :: List.replicate 10 2) :: List.replicate 10 (List.replicate 11 2)

/-- A previous target mask covering the 120 pixels of instance 2. -/
def exPrev : Grid Bool :=
  (false :: List.replicate 10 true) :: List.replicate 10 (List.replicate 11 true)

set_option maxRecDepth 8000 in
/-- Counterexample to claim C3 as stated, in two parts.
Part one: with a non-empty previous mask, a frame whose single
instance has no class overlap makes the selection return the EMPTY
best-candidate mask, not the previous mask - the best candidate is
set as soon as any instance id exists (the first candidate always
beats the initial minus-infinity count, grasp_object.py line 121), so
the prev_mask fallback at line 130 is unreachable and the returned
mask becomes empty while a non-empty previous mask exists.
Part two: the aim-centered short circuit (line 104) wins over the
continuity candidate: instance 2 overlaps the previous mask on 120
pixels of the right class, beyond the default threshold 100, yet the
mask of instance 1, which contains the aim center, is returned. -/
theorem claim_C3_counterexample :
    (getTargetMask (fun _ => none) "cup" [[0]] [[0]] (0, 0) 100 (some [[true]]) =
        some [[false]] ∧
      maskCount [[false]] = 0 ∧ maskCount [[true]] = 1) ∧
    (getTargetMask exClassName "cup" exSem exInst (0, 0) 100 (some exPrev) =
        some (eqMask exInst 1) ∧
      maskCount (continuityCandidate exClassName "cup" exSem exInst exPrev 2) = 120 ∧
      eqMask exInst 1 ≠ continuityCandidate exClassName "cup" exSem exInst exPrev 2) := by
  refine ⟨⟨by decide, by decide, by decide⟩, ⟨by decide, by decide, by decide⟩⟩

/-- Claim C3 (amended): for every servo frame, target-mask selection
returns: the mask of the instance under the aim center whenever the
aim-center pixel (in range) lies in the class mask (the short
circuit, regardless of the continuity candidate); otherwise the
continuity candidate (an instance-mask-and-previous-mask-and-class
intersection of maximal pixel count) when some continuity candidate
exceeds the minimum-points threshold; otherwise, whenever at least
one instance id exists, the best candidate (an
instance-mask-and-class intersection of maximal pixel count, which
may be empty even when a non-empty previous mask exists); and the
previous mask unchanged only when the instance map has no ids at
all. -/
theorem claim_C3 (className : ℕ → Option String) (target : String)
    (semantic instanceMap : Grid ℕ) (cx cy : ℕ) (minPts : ℕ)
    (prevMask : Option (Grid Bool)) :
    (cy < instanceMap.length → cx < (instanceMap.getD cy []).length →
      gridGet (getClassMask className target semantic) false cy cx = true →
      getTargetMask className target semantic instanceMap (cx, cy) minPts prevMask =
        some (eqMask instanceMap (gridGet instanceMap 0 cy cx))) ∧
    (∀ pm, prevMask = some pm →
      gridGet (getClassMask className target semantic) false cy cx = false →
      (∃ i0 ∈ uniqueIds instanceMap,
        minPts < maskCount (continuityCandidate className target semantic instanceMap pm i0)) →
      ∃ i ∈ uniqueIds instanceMap,
        getTargetMask className target semantic instanceMap (cx, cy) minPts prevMask =
          some (continuityCandidate className target semantic instanceMap pm i) ∧
        minPts < maskCount (continuityCandidate className target semantic instanceMap pm i) ∧
        ∀ j ∈ uniqueIds instanceMap,
          maskCount (continuityCandidate className target semantic instanceMap pm j) ≤
            maskCount (continuityCandidate className target semantic instanceMap pm i)) ∧
    (gridGet (getClassMask className target semantic) false cy cx = false →
      (∀ pm, prevMask = some pm → ∀ i ∈ uniqueIds instanceMap,
        maskCount (continuityCandidate className target semantic instanceMap pm i) ≤ minPts) →
      uniqueIds instanceMap ≠ [] →
      ∃ i ∈ uniqueIds instanceMap,
        getTargetMask className target semantic instanceMap (cx, cy) minPts prevMask =
          some (bestCandidate className target semantic instanceMap i) ∧
        ∀ j ∈ uniqueIds instanceMap,
          maskCount (bestCandidate className target semantic instanceMap j) ≤
            maskCount (bestCandidate className target semantic instanceMap i)) ∧
    (gridGet (getClassMask className target semantic) false cy cx = false →
      uniqueIds instanceMap = [] →
      getTargetMask className target semantic instanceMap (cx, cy) minPts prevMask =
        prevMask) := by
  refine ⟨?_, ?_, ?_, ?_⟩
  · -- the aim-centered short circuit
    intro hy hx hclass
    have hcc : gridGet (eqMask instanceMap (gridGet instanceMap 0 cy cx)) false cy cx = true := by
      rw [gridGet_eqMask instanceMap _ cy cx hy hx]
      exact beq_self_eq_true _
    have huq : ∀ j, gridGet (eqMask instanceMap j) false cy cx = true →
        j = gridGet instanceMap 0 cy cx := by
      intro j hj
      rw [gridGet_eqMask instanceMap j cy cx hy hx] at hj
      exact (eq_of_beq hj).symm
    have hmem : gridGet instanceMap 0 cy cx ∈ uniqueIds instanceMap :=
      (mem_uniqueIds _ instanceMap).mpr (gridGet_mem_flatten instanceMap cy cx hy hx)
    have hloop := targetMaskLoop_sc (getClassMask className target semantic)
      instanceMap cx cy prevMask _ hclass hcc huq (uniqueIds instanceMap) none none hmem
    rcases hT : targetMaskLoop (getClassMask className target semantic) instanceMap
        cx cy prevMask (uniqueIds instanceMap) none none with ⟨sc, best, over⟩
    rw [hT] at hloop
    simp only at hloop
    subst hloop
    simp only [getTargetMask, hT]
  · -- the continuity candidate beyond the threshold
    intro pm hpm hclass hex
    subst hpm
    obtain ⟨i0, hi0, hbig⟩ := hex
    have hT := targetMaskLoop_no_sc (getClassMask className target semantic)
      instanceMap cx cy (some pm) hclass (uniqueIds instanceMap) none none
    simp only at hT
    rcases hF : foldMax (fun i =>
        (maskAnd (maskAnd (eqMask instanceMap i) pm) (getClassMask className target semantic),
         maskCount (maskAnd (maskAnd (eqMask instanceMap i) pm)
           (getClassMask className target semantic)))) (uniqueIds instanceMap) none
      with _ | p
    · exfalso
      obtain ⟨-, hnil⟩ := foldMax_isSome _ _ _ hF
      rw [hnil] at hi0
      exact List.not_mem_nil _ hi0
    · rcases foldMax_mem _ _ _ _ hF with h0 | ⟨i, hi, hpi⟩
      · exact Option.noConfusion h0
      · subst hpi
        have hub := foldMax_cand_le _ _ _ _ hF
        have hlt : minPts < maskCount (maskAnd (maskAnd (eqMask instanceMap i) pm)
            (getClassMask className target semantic)) :=
          lt_of_lt_of_le hbig (hub i0 hi0)
        refine ⟨i, hi, ?_, hlt, fun j hj => hub j hj⟩
        rw [hF] at hT
        simp only [getTargetMask, hT]
        rw [if_pos (by simpa using hlt)]
        rfl
  · -- the best candidate when no continuity candidate is large enough
    intro hclass hsmall hne
    have hT := targetMaskLoop_no_sc (getClassMask className target semantic)
      instanceMap cx cy prevMask hclass (uniqueIds instanceMap) none none
    rcases hB : foldMax (fun i =>
        (maskAnd (eqMask instanceMap i) (getClassMask className target semantic),
         maskCount (maskAnd (eqMask instanceMap i)
           (getClassMask className target semantic)))) (uniqueIds instanceMap) none
      with _ | q
    · exfalso
      obtain ⟨-, hnil⟩ := foldMax_isSome _ _ _ hB
      exact hne hnil
    · rcases foldMax_mem _ _ _ _ hB with h0 | ⟨i, hi, hqi⟩
      · exact Option.noConfusion h0
      · subst hqi
        have hub := foldMax_cand_le _ _ _ _ hB
        refine ⟨i, hi, ?_, fun j hj => hub j hj⟩
        cases prevMask with
        | none =>
          simp only at hT
          rw [hB] at hT
          simp only [getTargetMask, hT]
          rfl
        | some pm =>
          simp only at hT
          rw [hB] at hT
          rcases hF : foldMax (fun i =>
              (maskAnd (maskAnd (eqMask instanceMap i) pm)
                 (getClassMask className target semantic),
               maskCount (maskAnd (maskAnd (eqMask instanceMap i) pm)
                 (getClassMask className target semantic)))) (uniqueIds instanceMap) none
            with _ | p
          · rw [hF] at hT
            simp only [getTargetMask, hT]
            rfl
          · rw [hF] at hT
            rcases foldMax_mem _ _ _ _ hF with h0 | ⟨k, hk, hpk⟩
            · exact Option.noConfusion h0
            · have hple : p.2 ≤ minPts := by
                rw [hpk]
                exact hsmall pm rfl k hk
              simp only [getTargetMask, hT]
              rw [if_neg (by simpa using not_lt.mpr hple)]
              rfl
  · -- the previous mask only when there are no instance ids
    intro hclass hids
    simp only [getTargetMask, hids]
    rfl

set_option maxRecDepth 8000 in
/-- Witness for claim C3 at a concrete input: the aim-centered fast
path on the 11 by 11 frame returns the instance mask under the
center. -/
theorem claim_C3_witness :
    getTargetMask exClassName "cup" exSem exInst (0, 0) 100 (some exPrev) =
      some (eqMask exInst (gridGet exInst 0 0 0)) :=
  (claim_C3 exClassName "cup" exSem exInst 0 0 100 (some exPrev)).1
    (by decide) (by decide) (by decide)

end StretchSpec
